import Mathlib

/-!
Verification of the ddc-source-luasnip completion source
(src/denops/@ddc-sources/luasnip.ts) against its specification.

The TypeScript program is shallowly embedded: every definition below is a
direct transcription of the corresponding source function.  The editor
bridge (the denops `eval` and `call("luaeval", ...)` primitives) is modelled
as an environment of `Except`-valued results, so that a rejected promise is
an `.error` and the program's try/catch structure is explicit.  Time is the
`Int` value of `Date.now()`.  JavaScript truthiness of optional strings and
booleans is modelled by explicit helpers.
-/

namespace DdcLuasnip

/-- A JavaScript exception, abstracted to its message. -/
abbrev Err := String

/-- JS `String.prototype.toLowerCase`, embedded as a character map (ASCII
case folding, which covers every string the program manipulates). -/
def jsToLowerCase (s : String) : String :=
  ⟨s.data.map Char.toLower⟩

/-- JS `String.prototype.trim`: strip leading and trailing whitespace. -/
def jsTrim (s : String) : String :=
  ⟨((s.data.dropWhile Char.isWhitespace).reverse.dropWhile Char.isWhitespace).reverse⟩

/-- JS `String.prototype.startsWith`. -/
def jsStartsWith (s pre : String) : Bool :=
  pre.data.isPrefixOf s.data

/-- Helper for `jsIncludes`: does `pat` occur as a contiguous run inside
the character list? -/
def jsIncludesList (pat : List Char) : List Char → Bool
  | [] => pat.isEmpty
  | c :: rest => pat.isPrefixOf (c :: rest) || jsIncludesList pat rest

/-- JS `String.prototype.includes`: substring containment. -/
def jsIncludes (s pat : String) : Bool :=
  jsIncludesList pat.data s.data

/-- JS truthiness of an optional string: `undefined` and the empty string
are falsy, every other string is truthy. -/
def jsStrTruthy : Option String → Bool
  | some s => s ≠ ""
  | none => false

/-- The string value of an optional string, with `undefined` read as `""`
(this is what a JS template literal interpolation produces modulo the
`|| ""` fallbacks used by the source). -/
def jsStrVal : Option String → String
  | some s => s
  | none => ""

/-- JS `x || d` on an optional string: the value when truthy, else `d`. -/
def jsOr (o : Option String) (d : String) : String :=
  if jsStrTruthy o then jsStrVal o else d

/-- JS truthiness of an optional boolean: `undefined` and `false` are
falsy. -/
def jsBoolTruthy : Option Bool → Bool
  | some b => b
  | none => false

/-- Transcription of the `LuaSnipData` interface (luasnip.ts lines 23-30):
trigger and filetype are required strings, the rest are optional. -/
structure LuaSnipData where
  trigger : String
  name : Option String
  description : Option String
  wordTrig : Option Bool
  regTrig : Option Bool
  filetype : String
deriving Repr, DecidableEq

/-- Transcription of the `Params` interface (lines 9-21).  `maxCandidates`
is a candidate count and is modelled as `Nat`; `cacheTimeout` is a duration
in milliseconds. -/
structure Params where
  mark : String
  dup : Bool
  maxCandidates : Nat
  enableCache : Bool
  cacheTimeout : Int
  filetypes : List String
  excludeFiletypes : List String
  showCondition : Bool
  enableRegexTrigger : Bool
  debug : Bool
deriving Repr, DecidableEq

/-- The ddc `Item` fields populated by `convertToItems` (lines 274-281). -/
structure Item where
  word : String
  abbr : String
  menu : String
  info : String
  kind : String
  dup : Bool
deriving Repr, DecidableEq

/-- Transcription of the `CacheEntry` interface (lines 32-35). -/
structure CacheEntry where
  data : List LuaSnipData
  timestamp : Int
deriving Repr, DecidableEq

/-- Transcription of the `AnalyzeResult` interface (lines 37-40). -/
structure AnalyzeResult where
  shouldComplete : Bool
  filetype : String
deriving Repr, DecidableEq

/-- The contents of the private `Map<string, CacheEntry>` field of
`SnippetCache` (line 43), modelled as an association list in which the
most recent `set` for a key shadows earlier bindings. -/
abbrev CacheState := List (String × CacheEntry)

/-- `Map.get`: the binding for the key, if any. -/
def mapLookup : CacheState → String → Option CacheEntry
  | [], _ => none
  | (k, v) :: rest, key => if k = key then some v else mapLookup rest key

/-- `Map.set`: bind the key, shadowing any earlier binding. -/
def mapInsert (st : CacheState) (key : String) (v : CacheEntry) : CacheState :=
  (key, v) :: st

/-- The result of the remote `luaeval` call that enumerates snippets, as
seen by `LuaSnipInterface.getSnippets`: either an array of snippet records,
or some non-array value, while a rejected bridge call is an `.error` in
the environment. -/
inductive LuaResult where
  | arr (data : List LuaSnipData)
  | nonArray
deriving Repr, DecidableEq

/-- The editor bridge, the only external input of the program:
the result of `denops.eval("&filetype")`, the result per filetype of the
snippet-enumerating `denops.call("luaeval", ...)`, and the result of the
availability-probing `luaeval` coerced through JS `Boolean`. -/
structure Env where
  filetypeEval : Except Err String
  luaevalSnippets : String → Except Err LuaResult
  luaevalAvail : Except Err Bool

instance {ε α : Type} [DecidableEq ε] [DecidableEq α] : DecidableEq (Except ε α) := fun x y =>
  match x, y with
  | .ok a, .ok b => if h : a = b then .isTrue (by rw [h]) else .isFalse (by simp [h])
  | .error a, .error b => if h : a = b then .isTrue (by rw [h]) else .isFalse (by simp [h])
  | .ok _, .error _ => .isFalse (by simp)
  | .error _, .ok _ => .isFalse (by simp)

namespace SnippetCache

/-- Result of one `SnippetCache.get` call: the returned (or thrown) value,
the cache contents afterwards, and how many times the fetcher ran. -/
structure GetResult where
  result : Except Err (List LuaSnipData)
  state : CacheState
  fetches : Nat
deriving Repr, DecidableEq

/-- Transcription of `SnippetCache.get` (lines 50-64).  A stored entry is
served iff `now - entry.timestamp < timeout`; otherwise the fetcher runs
and, on success, its data is stored under the key with timestamp `now`.
A fetcher rejection propagates and writes nothing. -/
def get (timeout : Int) (st : CacheState) (filetype : String) (now : Int)
    (fetcher : Except Err (List LuaSnipData)) : GetResult :=
  match mapLookup st filetype with
  | some entry =>
    if now - entry.timestamp < timeout then
      ⟨.ok entry.data, st, 0⟩
    else
      match fetcher with
      | .ok data => ⟨.ok data, mapInsert st filetype ⟨data, now⟩, 1⟩
      | .error e => ⟨.error e, st, 1⟩
  | none =>
    match fetcher with
    | .ok data => ⟨.ok data, mapInsert st filetype ⟨data, now⟩, 1⟩
    | .error e => ⟨.error e, st, 1⟩

end SnippetCache

namespace LuaSnipInterface

/-- Transcription of `LuaSnipInterface.getSnippets` (lines 76-110): the
`luaeval` result is accepted only when it is an array
(`Array.isArray(result) ? result : []`), and the surrounding try/catch
turns a rejected bridge call into an empty list. -/
def getSnippets (env : Env) (filetype : String) : List LuaSnipData :=
  match env.luaevalSnippets filetype with
  | .ok (.arr data) => data
  | .ok .nonArray => []
  | .error _ => []

/-- Transcription of `LuaSnipInterface.isLuaSnipAvailable` (lines 112-123):
`Boolean(result)` on success, `false` when the bridge call rejects. -/
def isLuaSnipAvailable (env : Env) : Bool :=
  match env.luaevalAvail with
  | .ok b => b
  | .error _ => false

end LuaSnipInterface

namespace Source

/-- The timeout of the Source's cache.  The field initializer
`private cache: SnippetCache = new SnippetCache();` (line 127) uses the
constructor default `timeout = 5000` (line 46); `Params.cacheTimeout` is
never passed to it. -/
def cacheTimeoutMs : Int := 5000

/-- Transcription of `Source.params` (lines 183-196): the default
configuration. -/
def defaultParams : Params where
  mark := "[LS]"
  dup := false
  maxCandidates := 500
  enableCache := true
  cacheTimeout := 5000
  filetypes := []
  excludeFiletypes := []
  showCondition := true
  enableRegexTrigger := true
  debug := false

/-- Transcription of `Source.onInit` (lines 131-144) acting on the
`isInitialized` flag: when the availability probe fails the method returns
early and the flag keeps its value; otherwise the flag becomes true. -/
def onInit (isInitialized : Bool) (env : Env) : Bool :=
  if LuaSnipInterface.isLuaSnipAvailable env then true else isInitialized

/-- Transcription of `Source.analyzeContext` (lines 198-216):
`filetype || "all"` on success; on a rejected `denops.eval` the inner
catch yields `shouldComplete = false`. -/
def analyzeContext (env : Env) : AnalyzeResult :=
  match env.filetypeEval with
  | .ok ft => ⟨true, if ft = "" then "all" else ft⟩
  | .error _ => ⟨false, ""⟩

/-- Transcription of `Source.getSnippets` (lines 218-243): the allow-list
and deny-list checks, then either the cached or the direct fetch.  The
cache is consulted with the fixed `cacheTimeoutMs` of the Source's
`SnippetCache` instance. -/
def getSnippets (env : Env) (st : CacheState) (filetype : String)
    (sourceParams : Params) (now : Int) : SnippetCache.GetResult :=
  if !sourceParams.filetypes.isEmpty && !sourceParams.filetypes.contains filetype then
    ⟨.ok [], st, 0⟩
  else if sourceParams.excludeFiletypes.contains filetype then
    ⟨.ok [], st, 0⟩
  else if sourceParams.enableCache then
    SnippetCache.get cacheTimeoutMs st filetype now
      (.ok (LuaSnipInterface.getSnippets env filetype))
  else
    ⟨.ok (LuaSnipInterface.getSnippets env filetype), st, 1⟩

/-- The filter callback of `Source.filterSnippets` (lines 255-267), applied
to the already lowercased input: trigger prefix test first, then the name
substring test guarded by name's truthiness. -/
def snippetMatches (inputLower : String) (s : LuaSnipData) : Bool :=
  if jsStartsWith (jsToLowerCase s.trigger) inputLower then true
  else if jsStrTruthy s.name && jsIncludes (jsToLowerCase (jsStrVal s.name)) inputLower then true
  else false

/-- Transcription of `Source.filterSnippets` (lines 245-268): when the
trimmed input is empty all snippets are kept; otherwise the filter runs on
`input.toLowerCase()` - the raw input, not the trimmed one. -/
def filterSnippets (snippets : List LuaSnipData) (input : String) : List LuaSnipData :=
  if jsTrim input = "" then snippets
  else snippets.filter (snippetMatches (jsToLowerCase input))

/-- Transcription of `Source.buildInfoText` (lines 284-307). -/
def buildInfoText (s : LuaSnipData) : String :=
  let parts : List String :=
    ["Trigger: " ++ s.trigger]
    ++ (if jsStrTruthy s.name then ["Name: " ++ jsStrVal s.name] else [])
    ++ (if jsStrTruthy s.description then ["Description: " ++ jsStrVal s.description] else [])
    ++ ["Filetype: " ++ s.filetype]
    ++ (let flags : List String :=
          (if jsBoolTruthy s.wordTrig then ["word trigger"] else [])
          ++ (if jsBoolTruthy s.regTrig then ["regex trigger"] else []);
        if flags.length > 0 then ["Flags: " ++ String.intercalate ", " flags] else [])
  String.intercalate "\n" parts

/-- Transcription of `Source.convertToItems` (lines 270-282).  The menu is
the template `mark ++ " " ++ (description || "")` with `.trim()` applied to
the whole string. -/
def convertToItems (snippets : List LuaSnipData) (sourceParams : Params) : List Item :=
  snippets.map fun s =>
    { word := s.trigger
      abbr := jsOr s.name s.trigger
      menu := jsTrim (sourceParams.mark ++ " " ++ jsOr s.description "")
      info := buildInfoText s
      kind := "Snippet"
      dup := sourceParams.dup }

/-- Result of one `Source.gather` call: the returned items, the cache
contents afterwards, and how many upstream fetches ran. -/
structure GatherOutcome where
  items : List Item
  cache : CacheState
  fetches : Nat
deriving Repr, DecidableEq

/-- The body of `Source.gather` (lines 146-181) without the top-level
catch: the `isInitialized` guard, context analysis (whose own catch makes
it total), retrieval, input filtering, conversion and truncation.  An
error escaping retrieval is an `.error` carrying the cache state and fetch
count at the moment of the throw. -/
def gatherE (isInitialized : Bool) (st : CacheState) (env : Env) (now : Int)
    (input : String) (sourceParams : Params) :
    Except (Err × CacheState × Nat) GatherOutcome :=
  if !isInitialized then .ok ⟨[], st, 0⟩
  else
    let ar := analyzeContext env
    if !ar.shouldComplete then .ok ⟨[], st, 0⟩
    else
      let r := getSnippets env st ar.filetype sourceParams now
      match r.result with
      | .error e => .error (e, r.state, r.fetches)
      | .ok snippets =>
        let filtered := filterSnippets snippets input
        .ok ⟨(convertToItems filtered sourceParams).take sourceParams.maxCandidates,
             r.state, r.fetches⟩

/-- Transcription of `Source.gather` (lines 146-181): the body wrapped in
the top-level try/catch, which converts any escaped error into an empty
item list (`handleError` only logs). -/
def gather (isInitialized : Bool) (st : CacheState) (env : Env) (now : Int)
    (input : String) (sourceParams : Params) : GatherOutcome :=
  match gatherE isInitialized st env now input sourceParams with
  | .ok r => r
  | .error (_, st', n) => ⟨[], st', n⟩

end Source

/-- JS `String.prototype.trimEnd`: strip trailing whitespace only.  Used
by the claim-side menu formula of C8, which trims only the trailing
separator space when the description is absent. -/
def jsTrimEnd (s : String) : String :=
  ⟨(s.data.reverse.dropWhile Char.isWhitespace).reverse⟩

/-- The keep-predicate of the input filter, written from the claim's
vocabulary: case-insensitively, the trigger starts with the typed string
or the (present, i.e. nonempty) name contains it as a substring.  The
claim of C3 applies it to the trimmed input, the code to the raw input. -/
def c3Keep (typed : String) (s : LuaSnipData) : Bool :=
  jsStartsWith (jsToLowerCase s.trigger) (jsToLowerCase typed) ||
  (jsStrTruthy s.name && jsIncludes (jsToLowerCase (jsStrVal s.name)) (jsToLowerCase typed))

/-- The input filter exactly as claim C3 states it: operate on the trimmed
typed prefix; when it is empty keep everything, otherwise keep the
matching snippets in order. -/
def c3ClaimFilter (snippets : List LuaSnipData) (input : String) : List LuaSnipData :=
  if jsTrim input = "" then snippets
  else snippets.filter (c3Keep (jsTrim input))

/-- The menu formula exactly as claim C8 states it: the mark concatenated
with a space and the description, trimmed of trailing whitespace only when
the description is absent. -/
def c8ClaimMenu (mark : String) (description : Option String) : String :=
  if jsStrTruthy description then mark ++ " " ++ jsStrVal description
  else jsTrimEnd (mark ++ " ")

/-- The flag labels of claim C8: "word trigger" / "regex trigger" listed
only for flags that are true. -/
def c8Flags (s : LuaSnipData) : List String :=
  (if jsBoolTruthy s.wordTrig then ["word trigger"] else [])
  ++ (if jsBoolTruthy s.regTrig then ["regex trigger"] else [])

/-- The info block of claim C8: the fixed field order Trigger, Name (if
present), Description (if present), Filetype, then Flags, the latter
omitted entirely when no flag is true. -/
def c8ClaimInfo (s : LuaSnipData) : String :=
  String.intercalate "\n" (List.filterMap id
    [ some ("Trigger: " ++ s.trigger),
      if jsStrTruthy s.name then some ("Name: " ++ jsStrVal s.name) else none,
      if jsStrTruthy s.description then some ("Description: " ++ jsStrVal s.description) else none,
      some ("Filetype: " ++ s.filetype),
      if c8Flags s = [] then none else some ("Flags: " ++ String.intercalate ", " (c8Flags s)) ])

/-- The candidate conversion of claim C8 with the menu formula amended to
what the code computes: the whole menu string is trimmed of leading and
trailing whitespace unconditionally. -/
def c8AmendedItem (p : Params) (s : LuaSnipData) : Item where
  word := s.trigger
  abbr := if jsStrTruthy s.name then jsStrVal s.name else s.trigger
  menu := jsTrim (p.mark ++ " " ++ (if jsStrTruthy s.description then jsStrVal s.description else ""))
  info := c8ClaimInfo s
  kind := "Snippet"
  dup := p.dup

/-- A representative snippet definition (the one used by the repository's
own tests). -/
def sampleSnippet : LuaSnipData :=
  ⟨"function", some "Function Declaration", some "Create a function", none, none, "typescript"⟩

/-- A bridge whose calls all succeed: filetype "typescript", one snippet,
LuaSnip available. -/
def sampleEnv : Env :=
  ⟨.ok "typescript", fun _ => .ok (.arr [sampleSnippet]), .ok true⟩

/-- A bridge whose snippet-enumerating call rejects. -/
def fetchErrEnv : Env :=
  ⟨.ok "typescript", fun _ => .error "luaeval rejected", .ok true⟩

/-- A bridge whose filetype read rejects. -/
def evalErrEnv : Env :=
  ⟨.error "eval rejected", fun _ => .ok (.arr [sampleSnippet]), .ok true⟩

/-- A bridge on which the LuaSnip availability probe reports false. -/
def unavailableEnv : Env :=
  ⟨.ok "typescript", fun _ => .ok (.arr [sampleSnippet]), .ok false⟩

/-- A bridge that reports an empty filetype string. -/
def emptyFiletypeEnv : Env :=
  ⟨.ok "", fun _ => .ok (.arr [sampleSnippet]), .ok true⟩

/-- A snippet whose description carries a trailing space. -/
def trailingDescSnippet : LuaSnipData :=
  ⟨"function", some "Function Declaration", some "Create a function ", none, none, "typescript"⟩

/-- The default configuration with a cache timeout shorter than the
hard-coded 5000 ms of the Source's `SnippetCache` instance. -/
def c1FailingParams : Params :=
  { Source.defaultParams with cacheTimeout := 1000 }

/-!  Helper lemmas, shared by the claim theorems below. -/

/-- Filtering an empty snippet list yields an empty list in both branches
of the trimmed-input test. -/
theorem filterSnippets_nil (input : String) : Source.filterSnippets [] input = [] := by
  unfold Source.filterSnippets
  split <;> rfl

/-- The filter callback is the disjunction of the trigger-prefix test and
the guarded name-substring test. -/
theorem snippetMatches_eq (il : String) (s : LuaSnipData) :
    Source.snippetMatches il s =
      (jsStartsWith (jsToLowerCase s.trigger) il ||
        (jsStrTruthy s.name && jsIncludes (jsToLowerCase (jsStrVal s.name)) il)) := by
  unfold Source.snippetMatches
  split
  · rename_i h
    rw [h]
    rfl
  · rename_i h
    rw [Bool.not_eq_true] at h
    rw [h]
    split
    · rename_i h2
      rw [h2]
      rfl
    · rename_i h2
      rw [Bool.not_eq_true] at h2
      rw [h2]
      rfl

/-- `Source.getSnippets` never throws: its fetcher is the total
`LuaSnipInterface.getSnippets`, so every branch produces an `.ok`. -/
theorem getSnippets_isOk (env : Env) (st : CacheState) (ft : String)
    (p : Params) (now : Int) :
    ∃ l, (Source.getSnippets env st ft p now).result = .ok l := by
  unfold Source.getSnippets
  split
  · exact ⟨[], rfl⟩
  split
  · exact ⟨[], rfl⟩
  split
  · unfold SnippetCache.get
    cases hL : mapLookup st ft with
    | some entry =>
      dsimp only
      split
      · exact ⟨entry.data, rfl⟩
      · exact ⟨_, rfl⟩
    | none => exact ⟨_, rfl⟩
  · exact ⟨_, rfl⟩

/-- A gather call on a non-initialized source returns the empty outcome. -/
theorem gather_false (st : CacheState) (env : Env) (now : Int) (input : String)
    (p : Params) : Source.gather false st env now input p = ⟨[], st, 0⟩ := rfl

/-- A gather call whose context analysis failed returns the empty
outcome. -/
theorem gather_notComplete (st : CacheState) (env : Env) (now : Int) (input : String)
    (p : Params) (ft0 : String) (h : Source.analyzeContext env = ⟨false, ft0⟩) :
    Source.gather true st env now input p = ⟨[], st, 0⟩ := by
  unfold Source.gather Source.gatherE
  rw [h]
  rfl

/-- The successful-path shape of a gather call: with context analysis
yielding the key `ft` and retrieval returning `snips`, the outcome is the
converted filtered snippets truncated to `maxCandidates`, together with
the retrieval's cache state and fetch count. -/
theorem gather_true_ok (st : CacheState) (env : Env) (now : Int) (input : String)
    (p : Params) (ft : String) (snips : List LuaSnipData)
    (h1 : Source.analyzeContext env = ⟨true, ft⟩)
    (h2 : (Source.getSnippets env st ft p now).result = .ok snips) :
    Source.gather true st env now input p =
      ⟨(Source.convertToItems (Source.filterSnippets snips input) p).take p.maxCandidates,
       (Source.getSnippets env st ft p now).state,
       (Source.getSnippets env st ft p now).fetches⟩ := by
  unfold Source.gather Source.gatherE
  rw [h1]
  dsimp only
  rw [h2]
  rfl

/-- The body of gather never produces an error: every failure point below
the top-level catch is already handled by an inner catch. -/
theorem gatherE_isOk (init : Bool) (st : CacheState) (env : Env) (now : Int)
    (input : String) (p : Params) :
    ∃ r, Source.gatherE init st env now input p = .ok r := by
  cases init with
  | false => exact ⟨⟨[], st, 0⟩, rfl⟩
  | true =>
    cases hAr : Source.analyzeContext env with
    | mk sc ftv =>
      cases sc with
      | false =>
        refine ⟨⟨[], st, 0⟩, ?_⟩
        unfold Source.gatherE
        rw [hAr]
        rfl
      | true =>
        obtain ⟨l, hl⟩ := getSnippets_isOk env st ftv p now
        refine ⟨⟨(Source.convertToItems (Source.filterSnippets l input) p).take p.maxCandidates,
                 (Source.getSnippets env st ftv p now).state,
                 (Source.getSnippets env st ftv p now).fetches⟩, ?_⟩
        unfold Source.gatherE
        rw [hAr]
        dsimp only
        rw [hl]
        rfl

/-- Looking up the key just written returns the written entry. -/
theorem mapLookup_insert (st : CacheState) (k : String) (v : CacheEntry) :
    mapLookup (mapInsert st k v) k = some v := by
  simp [mapInsert, mapLookup]

/-- `Source.getSnippets` reads the bridge only through the
snippet-enumerating call. -/
theorem getSnippets_env_congr (env env2 : Env) (st : CacheState) (ft : String)
    (p : Params) (now : Int) (h : env.luaevalSnippets = env2.luaevalSnippets) :
    Source.getSnippets env st ft p now = Source.getSnippets env2 st ft p now := by
  unfold Source.getSnippets LuaSnipInterface.getSnippets
  rw [h]

/-- Claim C3 counterexample: on the typed input " fun" (leading space) and
a snippet with trigger "function", the claimed filter (which operates on
the trimmed prefix) keeps the snippet, but the code's filter matches
against the untrimmed input and drops it. -/
theorem c3_filter_counterexample :
    Source.filterSnippets [sampleSnippet] " fun" = [] ∧
    c3ClaimFilter [sampleSnippet] " fun" = [sampleSnippet] := by
  decide

/-- Claim C3 (amended): the emptiness test uses the trimmed input, but the
matching itself uses the raw (untrimmed) input: if the trimmed input is
empty all snippets are kept, otherwise a snippet is kept iff,
case-insensitively, its trigger starts with the untrimmed typed input or
its nonempty name contains it as a substring; survivors keep retrieval
order (the filter is stable, there is no re-sort). -/
theorem c3_filter_amended (snippets : List LuaSnipData) (input : String) :
    Source.filterSnippets snippets input =
      (if jsTrim input = "" then snippets else snippets.filter (c3Keep input)) ∧
    List.Sublist (Source.filterSnippets snippets input) snippets := by
  have hmain : Source.filterSnippets snippets input =
      (if jsTrim input = "" then snippets else snippets.filter (c3Keep input)) := by
    by_cases h : jsTrim input = ""
    · simp [Source.filterSnippets, h]
    · simp only [Source.filterSnippets, h, if_false, if_neg]
      exact List.filter_congr fun x _ => by rw [snippetMatches_eq]; rfl
  refine ⟨hmain, ?_⟩
  rw [hmain]
  by_cases h : jsTrim input = ""
  · rw [if_pos h]
  · rw [if_neg h]
    exact List.filter_sublist snippets

/-- Claim C9: the configuration options showCondition, enableRegexTrigger
and debug are never read by gather; two calls identical except for those
three values return identical outcomes. -/
theorem c9_option_noninterference (init : Bool) (st : CacheState) (env : Env)
    (now : Int) (input : String) (p : Params) (sc ert dbg : Bool) :
    Source.gather init st env now input
        { p with showCondition := sc, enableRegexTrigger := ert, debug := dbg } =
      Source.gather init st env now input p := rfl

/-- Claim C5: when the availability probe reports false, onInit leaves the
source uninitialized, and every subsequent gather call - whatever bridge,
time, input and configuration it sees - returns the empty outcome. -/
theorem c5_unavailable_stays_empty (env env2 : Env) (st : CacheState) (now : Int)
    (input : String) (p : Params)
    (h : LuaSnipInterface.isLuaSnipAvailable env = false) :
    Source.onInit false env = false ∧
    Source.gather (Source.onInit false env) st env2 now input p = ⟨[], st, 0⟩ := by
  have h1 : Source.onInit false env = false := by
    unfold Source.onInit
    rw [h]
    rfl
  exact ⟨h1, by rw [h1]; exact gather_false st env2 now input p⟩

/-- Claim C5 witness: a concrete bridge on which the probe reports false. -/
theorem c5_unavailable_stays_empty_witness :
    Source.onInit false unavailableEnv = false ∧
    Source.gather (Source.onInit false unavailableEnv) [] sampleEnv 5 "fun"
        Source.defaultParams = ⟨[], [], 0⟩ :=
  c5_unavailable_stays_empty unavailableEnv sampleEnv [] 5 "fun" Source.defaultParams rfl

/-- Claim C6: with a context key ft, a non-empty allow-list not containing
ft makes gather return the empty outcome; independently, a deny-list
containing ft makes gather return the empty outcome, with no upstream
fetch whatever snippets the bridge would deliver. -/
theorem c6_allow_deny_lists (init : Bool) (st : CacheState) (env : Env) (now : Int)
    (input : String) (p : Params) (ft : String)
    (h1 : Source.analyzeContext env = ⟨true, ft⟩) :
    (p.filetypes.isEmpty = false → p.filetypes.contains ft = false →
      Source.gather init st env now input p = ⟨[], st, 0⟩) ∧
    (p.excludeFiletypes.contains ft = true →
      Source.gather init st env now input p = ⟨[], st, 0⟩) := by
  cases init with
  | false => exact ⟨fun _ _ => rfl, fun _ => rfl⟩
  | true =>
    constructor
    · intro hE hC
      have hok : Source.getSnippets env st ft p now = ⟨.ok [], st, 0⟩ := by
        unfold Source.getSnippets
        rw [hE, hC]
        rfl
      rw [gather_true_ok st env now input p ft [] h1 (by rw [hok])]
      rw [hok, filterSnippets_nil]
      simp [Source.convertToItems]
    · intro hX
      have hok : Source.getSnippets env st ft p now = ⟨.ok [], st, 0⟩ := by
        unfold Source.getSnippets
        rw [hX]
        split
        · rfl
        · rfl
      rw [gather_true_ok st env now input p ft [] h1 (by rw [hok])]
      rw [hok, filterSnippets_nil]
      simp [Source.convertToItems]

/-- Claim C6 witness: the repository tests' configurations - a deny-list
containing "typescript", and an allow-list of just "python" - both make
gather return empty against a bridge that has a snippet to offer. -/
theorem c6_allow_deny_lists_witness :
    Source.gather true [] sampleEnv 0 ""
        { Source.defaultParams with filetypes := ["python"] } = ⟨[], [], 0⟩ ∧
    Source.gather true [] sampleEnv 0 ""
        { Source.defaultParams with excludeFiletypes := ["typescript"] } = ⟨[], [], 0⟩ :=
  ⟨(c6_allow_deny_lists true [] sampleEnv 0 ""
      { Source.defaultParams with filetypes := ["python"] } "typescript" rfl).1
      (by decide) (by decide),
   (c6_allow_deny_lists true [] sampleEnv 0 ""
      { Source.defaultParams with excludeFiletypes := ["typescript"] } "typescript" rfl).2
      (by decide)⟩

/-- Claim C7: the returned candidate list never exceeds maxCandidates, and
on the successful path it is exactly the head of the converted surviving
snippets: `take maxCandidates`, so a prefix of the converted list. -/
theorem c7_truncation (init : Bool) (st : CacheState) (env : Env) (now : Int)
    (input : String) (p : Params) :
    (Source.gather init st env now input p).items.length ≤ p.maxCandidates ∧
    (∀ ft snips, init = true → Source.analyzeContext env = ⟨true, ft⟩ →
      (Source.getSnippets env st ft p now).result = .ok snips →
      (Source.gather init st env now input p).items =
        (Source.convertToItems (Source.filterSnippets snips input) p).take p.maxCandidates ∧
      ∃ rest, Source.convertToItems (Source.filterSnippets snips input) p =
        (Source.gather init st env now input p).items ++ rest) := by
  constructor
  · cases init with
    | false => simp [gather_false]
    | true =>
      cases hAr : Source.analyzeContext env with
      | mk sc ftv =>
        cases sc with
        | false =>
          rw [gather_notComplete st env now input p ftv hAr]
          simp
        | true =>
          obtain ⟨l, hl⟩ := getSnippets_isOk env st ftv p now
          rw [gather_true_ok st env now input p ftv l hAr hl]
          exact List.length_take_le p.maxCandidates _
  · intro ft snips hI hAr hOk
    subst hI
    rw [gather_true_ok st env now input p ft snips hAr hOk]
    exact ⟨rfl,
      ⟨(Source.convertToItems (Source.filterSnippets snips input) p).drop p.maxCandidates,
       (List.take_append_drop _ _).symm⟩⟩

/-- Claim C7 witness: a concrete successful gather call. -/
theorem c7_truncation_witness :
    (Source.gather true [] sampleEnv 0 "" Source.defaultParams).items.length ≤ 500 ∧
    (Source.gather true [] sampleEnv 0 "" Source.defaultParams).items =
      (Source.convertToItems (Source.filterSnippets [sampleSnippet] "")
        Source.defaultParams).take 500 :=
  ⟨(c7_truncation true [] sampleEnv 0 "" Source.defaultParams).1,
   ((c7_truncation true [] sampleEnv 0 "" Source.defaultParams).2 "typescript"
      [sampleSnippet] rfl (by decide) (by decide)).1⟩

/-- Claim C4: the body of gather never lets an exception escape - its
result is always the `.ok` that the wrapped gather returns - and when the
context read rejects the call degrades to the empty outcome. -/
theorem c4_no_exception_escapes (init : Bool) (st : CacheState) (env : Env)
    (now : Int) (input : String) (p : Params) :
    Source.gatherE init st env now input p = .ok (Source.gather init st env now input p) ∧
    (∀ e, env.filetypeEval = .error e →
      Source.gather init st env now input p = ⟨[], st, 0⟩) := by
  constructor
  · obtain ⟨r, hr⟩ := gatherE_isOk init st env now input p
    rw [hr]
    unfold Source.gather
    rw [hr]
  · intro e he
    cases init with
    | false => exact gather_false st env now input p
    | true =>
      apply gather_notComplete st env now input p ""
      unfold Source.analyzeContext
      rw [he]

/-- Claim C4 witness: a bridge whose filetype read rejects. -/
theorem c4_no_exception_escapes_witness :
    Source.gatherE true [] evalErrEnv 0 "fun" Source.defaultParams =
      .ok (Source.gather true [] evalErrEnv 0 "fun" Source.defaultParams) ∧
    Source.gather true [] evalErrEnv 0 "fun" Source.defaultParams = ⟨[], [], 0⟩ :=
  ⟨(c4_no_exception_escapes true [] evalErrEnv 0 "fun" Source.defaultParams).1,
   (c4_no_exception_escapes true [] evalErrEnv 0 "fun" Source.defaultParams).2
      "eval rejected" rfl⟩

/-- Claim C10: an empty filetype string from the editor does not abort the
call: context analysis succeeds with the literal key "all", and the whole
gather call behaves exactly as if the editor had reported "all". -/
theorem c10_empty_filetype_is_all (env : Env) (st : CacheState) (now : Int)
    (input : String) (p : Params) (init : Bool)
    (h : env.filetypeEval = .ok "") :
    Source.analyzeContext env = ⟨true, "all"⟩ ∧
    Source.gather init st env now input p =
      Source.gather init st ⟨.ok "all", env.luaevalSnippets, env.luaevalAvail⟩ now input p := by
  have h1 : Source.analyzeContext env = ⟨true, "all"⟩ := by
    unfold Source.analyzeContext
    rw [h]
    rfl
  refine ⟨h1, ?_⟩
  cases init with
  | false => rfl
  | true =>
    have h2 : Source.analyzeContext ⟨.ok "all", env.luaevalSnippets, env.luaevalAvail⟩ =
        ⟨true, "all"⟩ := by
      unfold Source.analyzeContext
      rfl
    have hcongr : Source.getSnippets ⟨.ok "all", env.luaevalSnippets, env.luaevalAvail⟩
        st "all" p now = Source.getSnippets env st "all" p now :=
      getSnippets_env_congr _ env st "all" p now rfl
    obtain ⟨l, hl⟩ := getSnippets_isOk env st "all" p now
    rw [gather_true_ok st env now input p "all" l h1 hl,
        gather_true_ok st _ now input p "all" l h2 (by rw [hcongr]; exact hl)]
    rw [hcongr]

/-- Claim C10 witness: a concrete bridge reporting the empty filetype. -/
theorem c10_empty_filetype_is_all_witness :
    Source.analyzeContext emptyFiletypeEnv = ⟨true, "all"⟩ ∧
    Source.gather true [] emptyFiletypeEnv 0 "fun" Source.defaultParams =
      Source.gather true []
        ⟨.ok "all", emptyFiletypeEnv.luaevalSnippets, emptyFiletypeEnv.luaevalAvail⟩
        0 "fun" Source.defaultParams :=
  c10_empty_filetype_is_all emptyFiletypeEnv [] 0 "fun" Source.defaultParams true rfl

/-- Claim C2 counterexample: with a bridge whose snippet fetch rejects, a
gather call degrades to no items, but a cache entry for the key IS
written (the claim says none is), and a second gather call within the
cache window performs zero upstream fetches (the claim says it fetches
again). -/
theorem c2_cached_failure_counterexample :
    (Source.gather true [] fetchErrEnv 0 "" Source.defaultParams).items = [] ∧
    mapLookup (Source.gather true [] fetchErrEnv 0 "" Source.defaultParams).cache
      "typescript" ≠ none ∧
    (Source.gather true (Source.gather true [] fetchErrEnv 0 "" Source.defaultParams).cache
        fetchErrEnv 1000 "" Source.defaultParams).fetches = 0 := by
  decide

/-- Claim C2 (amended): a failed upstream fetch degrades the gather call to
an empty snippet set, but because the failure is converted to an empty
list inside the snippet interface - below the cache layer - an empty-data
cache entry IS written for the context key, and a subsequent gather call
within the cache window serves that cached empty set with no further
fetch. -/
theorem c2_fetch_failure_cached_empty (env : Env) (st : CacheState) (ft : String)
    (now now2 : Int) (input input2 : String) (p : Params) (e : Err)
    (h1 : Source.analyzeContext env = ⟨true, ft⟩)
    (h2 : p.filetypes = [] ∨ p.filetypes.contains ft = true)
    (h3 : p.excludeFiletypes.contains ft = false)
    (h4 : p.enableCache = true)
    (h5 : mapLookup st ft = none)
    (h6 : env.luaevalSnippets ft = .error e)
    (h7 : now2 - now < Source.cacheTimeoutMs) :
    Source.gather true st env now input p = ⟨[], mapInsert st ft ⟨[], now⟩, 1⟩ ∧
    Source.gather true (mapInsert st ft ⟨[], now⟩) env now2 input2 p =
      ⟨[], mapInsert st ft ⟨[], now⟩, 0⟩ := by
  have hsn : LuaSnipInterface.getSnippets env ft = [] := by
    unfold LuaSnipInterface.getSnippets
    rw [h6]
  have hallow : (!p.filetypes.isEmpty && !p.filetypes.contains ft) = false := by
    cases h2 with
    | inl h => rw [h]; rfl
    | inr h => rw [h]; simp
  have hget1 : Source.getSnippets env st ft p now =
      ⟨.ok [], mapInsert st ft ⟨[], now⟩, 1⟩ := by
    unfold Source.getSnippets
    rw [hallow, h3, h4, hsn]
    simp [SnippetCache.get, h5]
  have hget2 : Source.getSnippets env (mapInsert st ft ⟨[], now⟩) ft p now2 =
      ⟨.ok [], mapInsert st ft ⟨[], now⟩, 0⟩ := by
    unfold Source.getSnippets
    rw [hallow, h3, h4]
    simp [SnippetCache.get, mapLookup_insert, h7]
  constructor
  · rw [gather_true_ok st env now input p ft [] h1 (by rw [hget1])]
    rw [hget1, filterSnippets_nil]
    simp [Source.convertToItems]
  · rw [gather_true_ok (mapInsert st ft ⟨[], now⟩) env now2 input2 p ft [] h1
      (by rw [hget2])]
    rw [hget2, filterSnippets_nil]
    simp [Source.convertToItems]

/-- Claim C2 (amended) witness: the concrete failing bridge, cold cache,
two calls 1000 ms apart. -/
theorem c2_fetch_failure_cached_empty_witness :
    Source.gather true [] fetchErrEnv 0 "" Source.defaultParams =
      ⟨[], mapInsert [] "typescript" ⟨[], 0⟩, 1⟩ ∧
    Source.gather true (mapInsert [] "typescript" ⟨[], 0⟩) fetchErrEnv 1000 "fn"
        Source.defaultParams = ⟨[], mapInsert [] "typescript" ⟨[], 0⟩, 0⟩ :=
  c2_fetch_failure_cached_empty fetchErrEnv [] "typescript" 0 1000 "" "fn"
    Source.defaultParams "luaeval rejected" (by decide) (Or.inl rfl) (by decide) rfl rfl
    rfl (by decide)

/-- Claim C1: evaluation of the code at the failing input.  With
cacheTimeout configured to 1000 ms, a first gather call at t=0 fetches and
writes the entry; a second call at t=2000 - the entry now 2000 ms old,
older than the configured timeout - still performs zero fetches and
serves the entry, because `Source` builds its `SnippetCache` with the
hard-coded 5000 ms constructor default and never reads
`Params.cacheTimeout`. -/
theorem c1_ignored_timeout_evaluation :
    (Source.gather true [] sampleEnv 0 "" c1FailingParams).fetches = 1 ∧
    mapLookup (Source.gather true [] sampleEnv 0 "" c1FailingParams).cache "typescript" =
      some ⟨[sampleSnippet], 0⟩ ∧
    (Source.gather true (Source.gather true [] sampleEnv 0 "" c1FailingParams).cache
        sampleEnv 2000 "" c1FailingParams).fetches = 0 ∧
    (Source.gather true (Source.gather true [] sampleEnv 0 "" c1FailingParams).cache
        sampleEnv 2000 "" c1FailingParams).items ≠ [] := by
  decide

/-- The info block built by the code coincides with the claimed fixed
field order. -/
theorem buildInfoText_eq (s : LuaSnipData) : Source.buildInfoText s = c8ClaimInfo s := by
  unfold Source.buildInfoText c8ClaimInfo c8Flags
  cases hn : jsStrTruthy s.name <;> cases hd : jsStrTruthy s.description <;>
    cases hw : jsBoolTruthy s.wordTrig <;> cases hr : jsBoolTruthy s.regTrig <;>
      simp [hn, hd, hw, hr, List.filterMap]

/-- Claim C8 counterexample: for a snippet whose description ends in a
space, the code's menu is the whole template string trimmed on both ends,
not the claimed mark-space-description concatenation: the trailing space
of the description is removed even though the description is present. -/
theorem c8_menu_counterexample :
    (Source.convertToItems [trailingDescSnippet] Source.defaultParams).map Item.menu =
      ["[LS] Create a function"] ∧
    c8ClaimMenu Source.defaultParams.mark trailingDescSnippet.description =
      "[LS] Create a function " ∧
    (Source.convertToItems [trailingDescSnippet] Source.defaultParams).map Item.menu ≠
      [c8ClaimMenu Source.defaultParams.mark trailingDescSnippet.description] := by
  decide

/-- Claim C8 (amended): every candidate is derived from its snippet and
the configuration as claimed - word = trigger, display label = name when
present (nonempty) else trigger, info = the fixed Trigger / Name /
Description / Filetype / Flags block, kind = "Snippet", dup =
Configuration.dup - except that the menu is the mark, a space and the
description (empty when absent) with leading and trailing whitespace
trimmed unconditionally, not only when the description is absent. -/
theorem c8_conversion_amended (snippets : List LuaSnipData) (p : Params) :
    Source.convertToItems snippets p = snippets.map (c8AmendedItem p) := by
  unfold Source.convertToItems
  exact List.map_congr_left fun s _ => by
    unfold c8AmendedItem
    simp [jsOr, buildInfoText_eq]

end DdcLuasnip
